import Mathlib

/-!
Verification of the fixed-pendulum simulation (`mhs.py`).

The program composes the pymunk 2D physics engine and the pyglet windowing
library.  We shallowly embed the hand-written arithmetic of the repository
(vector trigonometry, impulse application, the fixed-step update loop) over
`ℝ`, translating the relevant pymunk primitives (`Vec2d` operations,
`Body.apply_impulse_at_local_point`, `moment_for_circle`) from their
published sources (pymunk wraps Chipmunk2D).  The physics solver
(`Space.step`) and the pyglet event loop are external black boxes and are
modelled as abstract parameters.
-/

noncomputable section

open Real

/-- pymunk `Vec2d`: an immutable 2D vector with real components
(the float arithmetic of the source is idealised over `ℝ`). -/
structure Vec2d where
  x : ℝ
  y : ℝ

namespace Vec2d

@[ext]
theorem ext2 {v w : Vec2d} (hx : v.x = w.x) (hy : v.y = w.y) : v = w := by
  cases v; cases w; cases hx; cases hy; rfl

instance : Add Vec2d := ⟨fun v w => ⟨v.x + w.x, v.y + w.y⟩⟩

instance : Sub Vec2d := ⟨fun v w => ⟨v.x - w.x, v.y - w.y⟩⟩

instance : SMul ℝ Vec2d := ⟨fun c v => ⟨c * v.x, c * v.y⟩⟩

instance : Zero Vec2d := ⟨⟨0, 0⟩⟩

@[simp] theorem add_x (v w : Vec2d) : (v + w).x = v.x + w.x := rfl

@[simp] theorem add_y (v w : Vec2d) : (v + w).y = v.y + w.y := rfl

@[simp] theorem sub_x (v w : Vec2d) : (v - w).x = v.x - w.x := rfl

@[simp] theorem sub_y (v w : Vec2d) : (v - w).y = v.y - w.y := rfl

@[simp] theorem smul_x (c : ℝ) (v : Vec2d) : (c • v).x = c * v.x := rfl

@[simp] theorem smul_y (c : ℝ) (v : Vec2d) : (c • v).y = c * v.y := rfl

@[simp] theorem zero_x : (0 : Vec2d).x = 0 := rfl

@[simp] theorem zero_y : (0 : Vec2d).y = 0 := rfl

/-- pymunk `Vec2d.length`: `math.sqrt(self.x ** 2 + self.y ** 2)`. -/
def length (v : Vec2d) : ℝ := Real.sqrt (v.x ^ 2 + v.y ^ 2)

/-- pymunk `Vec2d.normalized`: returns `self / length` when the length is
nonzero and `Vec2d(0, 0)` otherwise (division is componentwise). -/
def normalized (v : Vec2d) : Vec2d :=
  if v.length ≠ 0 then ⟨v.x / v.length, v.y / v.length⟩ else ⟨0, 0⟩

/-- pymunk `Vec2d.rotated`: counterclockwise rotation by an angle in
radians. -/
def rotated (v : Vec2d) (angle_radians : ℝ) : Vec2d :=
  ⟨v.x * Real.cos angle_radians - v.y * Real.sin angle_radians,
   v.x * Real.sin angle_radians + v.y * Real.cos angle_radians⟩

/-- Python `math.radians`: degrees to radians. -/
def radiansOfDegrees (d : ℝ) : ℝ := d * (Real.pi / 180)

/-- Python `math.degrees`: radians to degrees. -/
def degreesOfRadians (r : ℝ) : ℝ := r * (180 / Real.pi)

/-- pymunk `Vec2d.rotated_degrees`: rotation by an angle in degrees. -/
def rotated_degrees (v : Vec2d) (angle_degrees : ℝ) : Vec2d :=
  v.rotated (radiansOfDegrees angle_degrees)

/-- Python `math.atan2(y, x)`: the argument of the point `(x, y)`,
in `(-π, π]`, with `atan2 0 0 = 0`; idealised as `Complex.arg`. -/
def atan2 (y x : ℝ) : ℝ := Complex.arg (Complex.ofReal x + Complex.ofReal y * Complex.I)

/-- pymunk `Vec2d.get_angle_between`: `atan2(cross, dot)` of the two
vectors, in radians. -/
def get_angle_between (v other : Vec2d) : ℝ :=
  atan2 (v.x * other.y - v.y * other.x) (v.x * other.x + v.y * other.y)

/-- pymunk `Vec2d.get_angle_degrees_between`: the same angle in degrees. -/
def get_angle_degrees_between (v other : Vec2d) : ℝ :=
  degreesOfRadians (v.get_angle_between other)

/-- Chipmunk `cpvcross`: the 2D cross product `v1.x*v2.y - v1.y*v2.x`. -/
def cross (v w : Vec2d) : ℝ := v.x * w.y - v.y * w.x

end Vec2d

/-- pymunk body type (`pymunk.Body.STATIC` / dynamic, the two used here). -/
inductive BodyType where
  | STATIC
  | DYNAMIC
deriving DecidableEq

/-- pymunk `Body`: the state an impulse or the solver can touch.  The
centre of gravity stays at the body origin `(0, 0)` throughout this
program (bodies are built with explicit mass and moment and no shape
density is ever set), so it is not a field. -/
structure Body where
  body_type : BodyType
  mass : ℝ
  moment : ℝ
  position : Vec2d
  velocity : Vec2d
  angle : ℝ
  angular_velocity : ℝ

@[ext]
theorem Body.ext7 {a b : Body} (h1 : a.body_type = b.body_type)
    (h2 : a.mass = b.mass) (h3 : a.moment = b.moment)
    (h4 : a.position = b.position) (h5 : a.velocity = b.velocity)
    (h6 : a.angle = b.angle) (h7 : a.angular_velocity = b.angular_velocity) :
    a = b := by
  cases a; cases b
  cases h1; cases h2; cases h3; cases h4; cases h5; cases h6; cases h7; rfl

/-- `pymunk.Body(body_type=pymunk.Body.STATIC)`: a static body; position is
set right after construction in `_create_entities`. -/
def Body.mkStatic (position : Vec2d) : Body :=
  { body_type := .STATIC, mass := 0, moment := 0, position := position,
    velocity := 0, angle := 0, angular_velocity := 0 }

/-- `pymunk.Body(mass=..., moment=...)`: a dynamic body; position is set
right after construction in `_create_entities`. -/
def Body.mkDynamic (mass moment : ℝ) (position : Vec2d) : Body :=
  { body_type := .DYNAMIC, mass := mass, moment := moment,
    position := position, velocity := 0, angle := 0, angular_velocity := 0 }

/-- Chipmunk `cpBodyApplyImpulseAtLocalPoint` (pymunk
`Body.apply_impulse_at_local_point` with its default `point=(0, 0)` made
explicit): the local impulse and point are taken to world coordinates by
the body transform (rotation by `angle`, translation by `position`; the
centre of gravity is `(0, 0)` here), then `v += impulse / m` and
`w += cross(r, impulse) / i` with `r` from the world centre of gravity to
the world point. -/
def Body.apply_impulse_at_local_point (b : Body) (impulse : Vec2d)
    (point : Vec2d) : Body :=
  let world_impulse := impulse.rotated b.angle
  let world_point := b.position + point.rotated b.angle
  let r := world_point - b.position
  { b with
    velocity := b.velocity + (1 / b.mass) • world_impulse,
    angular_velocity := b.angular_velocity + (1 / b.moment) * r.cross world_impulse }

/-- Chipmunk `cpMomentForCircle` (pymunk `moment_for_circle`, called with
its default `offset=(0, 0)` in the source):
`m * (0.5 * (r1² + r2²) + |offset|²)`. -/
def moment_for_circle (mass inner_radius outer_radius : ℝ) (offset : Vec2d) : ℝ :=
  mass * (0.5 * (inner_radius ^ 2 + outer_radius ^ 2) + (offset.x ^ 2 + offset.y ^ 2))

/-- pymunk `Circle`: a circle shape attached to a body. -/
structure CircleShape where
  body : Body
  radius : ℝ

/-- pymunk `constraints.PinJoint` with its default anchors `(0, 0)`. -/
structure PinJoint where
  a : Body
  b : Body
  anchor_a : Vec2d
  anchor_b : Vec2d

/-- An element registered with a `Space` by `Space.add`. -/
inductive SpaceElem where
  | body (b : Body)
  | shape (s : CircleShape)
  | constraint (j : PinJoint)

/-- pymunk `Space`: gravity plus the list of registered elements, in the
order they were added. -/
structure Space where
  gravity : Vec2d
  added : List SpaceElem

/-- `class Pendulum` (model state): the bodies and joint created by
`_create_entities`.  `MASS` and `FORCE` are its class constants. -/
structure Pendulum where
  static_body : Body
  circle_body : Body
  rod_joint : PinJoint

namespace Pendulum

/-- `Pendulum.MASS = 0.100`. -/
def MASS : ℝ := 0.100

/-- `Pendulum.FORCE = 10`. -/
def FORCE : ℝ := 10

/-- `Pendulum._create_entities` followed by the `space.add` call
(lines 19–39): builds the static anchor at `(360, 360)`, the dynamic bob
of mass `MASS` and circle moment at `(360, 50)`, the circle shape of
radius `10`, the pin joint, and registers all four with the space.
Returns the model together with the updated space. -/
def create_entities (space : Space) : Pendulum × Space :=
  let static_body := Body.mkStatic ⟨360, 360⟩
  let moment := moment_for_circle MASS 0 10.0 ⟨0, 0⟩
  let circle_body := Body.mkDynamic MASS moment ⟨360, 50⟩
  let circle_shape : CircleShape := { body := circle_body, radius := 10.0 }
  let rod_joint : PinJoint :=
    { a := static_body, b := circle_body, anchor_a := ⟨0, 0⟩, anchor_b := ⟨0, 0⟩ }
  (⟨static_body, circle_body, rod_joint⟩,
   { space with added := space.added ++
      [.body static_body, .body circle_body, .shape circle_shape, .constraint rod_joint] })

/-- `Pendulum.vector` (property): `circle_body.position - static_body.position`. -/
def vector (p : Pendulum) : Vec2d :=
  p.circle_body.position - p.static_body.position

/-- `Pendulum.angle` (property):
`Vec2d(0, -1).get_angle_degrees_between(self.vector)`, in degrees. -/
def angle (p : Pendulum) : ℝ :=
  (Vec2d.mk 0 (-1)).get_angle_degrees_between p.vector

/-- `Pendulum.accelerate`: `impulse = FORCE * direction.normalized()`,
applied at the bob's local point `(0, 0)` (the pymunk default). -/
def accelerate (p : Pendulum) (direction : Vec2d) : Pendulum :=
  let impulse := FORCE • direction.normalized
  { p with circle_body := p.circle_body.apply_impulse_at_local_point impulse ⟨0, 0⟩ }

/-- The impulse `accelerate` actually delivers in world coordinates,
read observationally off the bob's velocity change (`Δv = impulse / m`). -/
def applied_world_impulse (p : Pendulum) (direction : Vec2d) : Vec2d :=
  p.circle_body.mass • ((p.accelerate direction).circle_body.velocity - p.circle_body.velocity)

end Pendulum

/-- pyglet `key.KeyStateHandler`, restricted to the two keys the program
polls: whether LEFT and RIGHT are currently held. -/
structure KeyState where
  left : Bool
  right : Bool
deriving DecidableEq

/-- A window state: the pymunk space, the `Pendulum` model (the live bodies
are the model's fields), and the text of `angle_label`.  The pyglet window
itself (surface, caption, fonts) carries no verified behaviour. -/
structure WindowState where
  space : Space
  model : Pendulum
  label_text : String

/-- The external solver `pymunk.Space.step`, abstract: from the space, the
live model bodies and the step size to their successors.  The program never
relies on what it does, only on when and with what step size it is called. -/
structure StepEnv where
  step : Space → Pendulum → ℝ → Space × Pendulum

/-- `SimulationWindow.INTERVAL = 1.0 / 100`. -/
def INTERVAL : ℝ := 1.0 / 100

/-- `SimulationWindow._handle_input` (lines 93–100): if LEFT is held,
accelerate along the pendulum vector rotated −90°; `elif` RIGHT is held,
along the vector rotated +90°; otherwise do nothing.  Also returns the
list of `direction` arguments passed to `accelerate`, in call order. -/
def handle_input (model : Pendulum) (keyboard : KeyState) : Pendulum × List Vec2d :=
  if keyboard.left then
    let direction := model.vector.rotated_degrees (-90)
    (model.accelerate direction, [direction])
  else if keyboard.right then
    let direction := model.vector.rotated_degrees 90
    (model.accelerate direction, [direction])
  else
    (model, [])

/-- Python `str(i)` for an integer, as produced inside `format`. -/
def intDigits (i : ℤ) : String := toString i

/-- Left-pad a string with spaces to the given width (what a bare width
in a Python format spec does for numbers). -/
def padLeft (width : ℕ) (s : String) : String :=
  String.mk (List.replicate (width - s.length) ' ') ++ s

/-- Python `format(x, "4.0f")` idealised over `ℝ`: round to zero decimal
places (CPython rounds the underlying float to nearest, ties to even) and
left-pad with spaces to field width 4.  The float-specific rendering of
`-0.0` is not modelled. -/
def formatFixed (width : ℕ) (x : ℝ) : String :=
  padLeft width (intDigits
    (if Int.fract x = 1 / 2 then (if Even ⌊x⌋ then ⌊x⌋ else ⌊x⌋ + 1) else round x))

/-- The f-string of line 114: `f"Angle: {self.model.angle:4.0f}°"`. -/
def angleLabelText (angleDeg : ℝ) : String :=
  "Angle: " ++ formatFixed 4 angleDeg ++ "°"

/-- `SimulationWindow.update` (lines 108–114): handle input, step the space
by exactly `INTERVAL` (the `dt` argument is never used), then recompute the
label text from the model's current angle. -/
def update (env : StepEnv) (w : WindowState) (keyboard : KeyState) (dt : ℝ) :
    WindowState :=
  let model1 := (handle_input w.model keyboard).1
  let stepped := env.step w.space model1 INTERVAL
  { space := stepped.1, model := stepped.2,
    label_text := angleLabelText stepped.2.angle }

/-- Run `update` over a list of ticks, each a keyboard snapshot paired with
the `dt` the scheduler happened to pass; returns the state after each call. -/
def runUpdates (env : StepEnv) (w : WindowState) :
    List (KeyState × ℝ) → List WindowState
  | [] => []
  | t :: ts =>
    let w1 := update env w t.1 t.2
    w1 :: runUpdates env w1 ts

/-- The per-tick observation claim C2 compares: the bob's position and
velocity. -/
def bobPosVel (w : WindowState) : Vec2d × Vec2d :=
  (w.model.circle_body.position, w.model.circle_body.velocity)

/-- `SimulationWindow.__init__` (lines 70–91), model-relevant part: a fresh
space with gravity `(0, -9807)`, the `Pendulum` built in it, and an empty
label (pyglet `Label` defaults to `text=""`). -/
def mkWindow : WindowState :=
  let space0 : Space := { gravity := ⟨0, -9807⟩, added := [] }
  let created := Pendulum.create_entities space0
  { space := created.2, model := created.1, label_text := "" }

namespace Vec2d

theorem length_nonneg (v : Vec2d) : 0 ≤ v.length :=
  Real.sqrt_nonneg _

theorem length_eq_zero_iff (v : Vec2d) : v.length = 0 ↔ v = 0 := by
  unfold length
  rw [Real.sqrt_eq_zero (by positivity)]
  constructor
  · intro h
    have hx : v.x = 0 := by nlinarith [sq_nonneg v.x, sq_nonneg v.y]
    have hy : v.y = 0 := by nlinarith [sq_nonneg v.x, sq_nonneg v.y]
    exact Vec2d.ext2 hx hy
  · intro h
    rw [h]
    simp

theorem length_smul (c : ℝ) (v : Vec2d) : (c • v).length = |c| * v.length := by
  unfold length
  simp only [smul_x, smul_y]
  rw [show (c * v.x) ^ 2 + (c * v.y) ^ 2 = c ^ 2 * (v.x ^ 2 + v.y ^ 2) by ring,
    Real.sqrt_mul (sq_nonneg c), Real.sqrt_sq_eq_abs]

theorem normalized_of_ne_zero {v : Vec2d} (h : v.length ≠ 0) :
    v.normalized = (1 / v.length) • v := by
  unfold normalized
  rw [if_pos h]
  ext <;> simp <;> ring

theorem normalized_zero : (0 : Vec2d).normalized = 0 := by
  unfold normalized
  rw [if_neg]
  · rfl
  · simp [length_eq_zero_iff]

theorem length_normalized {v : Vec2d} (h : v.length ≠ 0) :
    v.normalized.length = 1 := by
  rw [normalized_of_ne_zero h, length_smul,
    abs_of_nonneg (div_nonneg zero_le_one (length_nonneg v)),
    one_div, inv_mul_cancel₀ h]

theorem normalized_smul_of_pos {c : ℝ} (hc : 0 < c) (v : Vec2d) :
    (c • v).normalized = v.normalized := by
  by_cases h : v.length = 0
  · rw [(length_eq_zero_iff v).mp h]
    have : c • (0 : Vec2d) = 0 := by ext <;> simp
    rw [this]
  · have hcv : (c • v).length ≠ 0 := by
      rw [length_smul, abs_of_pos hc]
      exact mul_ne_zero (ne_of_gt hc) h
    rw [normalized_of_ne_zero hcv, normalized_of_ne_zero h,
      length_smul, abs_of_pos hc]
    ext <;> simp <;> field_simp <;> ring

theorem normalized_normalized (v : Vec2d) :
    v.normalized.normalized = v.normalized := by
  by_cases h : v.length = 0
  · rw [(length_eq_zero_iff v).mp h, normalized_zero, normalized_zero]
  · have h1 : v.normalized.length = 1 := length_normalized h
    rw [normalized_of_ne_zero (h1 ▸ one_ne_zero), h1]
    ext <;> simp

theorem rotated_zero_angle (v : Vec2d) : v.rotated 0 = v := by
  unfold rotated
  simp

theorem rotated_of_zero_vec (a : ℝ) : (0 : Vec2d).rotated a = 0 := by
  unfold rotated
  ext <;> simp

theorem length_rotated (v : Vec2d) (a : ℝ) : (v.rotated a).length = v.length := by
  unfold length rotated
  congr 1
  show (v.x * Real.cos a - v.y * Real.sin a) ^ 2 +
      (v.x * Real.sin a + v.y * Real.cos a) ^ 2 = v.x ^ 2 + v.y ^ 2
  have h := Real.sin_sq_add_cos_sq a
  nlinarith [h]

theorem atan2_mem_Ioc (y x : ℝ) :
    atan2 y x ∈ Set.Ioc (-Real.pi) Real.pi :=
  Complex.arg_mem_Ioc _

theorem atan2_zero_of_nonneg {x : ℝ} (hx : 0 ≤ x) : atan2 0 x = 0 := by
  unfold atan2
  simp [Complex.arg_ofReal_of_nonneg hx]

theorem atan2_sin_cos {s t : ℝ} (hs : 0 < s)
    (ht : t ∈ Set.Ioc (-Real.pi) Real.pi) :
    atan2 (s * Real.sin t) (s * Real.cos t) = t := by
  unfold atan2
  have : (Complex.ofReal (s * Real.cos t) + Complex.ofReal (s * Real.sin t) * Complex.I)
      = Complex.ofReal s * (Complex.cos t + Complex.sin t * Complex.I) := by
    push_cast
    ring
  rw [this, Complex.arg_real_mul _ hs, Complex.arg_cos_add_sin_mul_I ht]

theorem degreesOfRadians_radiansOfDegrees (d : ℝ) :
    degreesOfRadians (radiansOfDegrees d) = d := by
  unfold degreesOfRadians radiansOfDegrees
  field_simp

end Vec2d

theorem Pendulum.angle_eq_atan2 (p : Pendulum) :
    p.angle = Vec2d.degreesOfRadians (Vec2d.atan2 p.vector.x (-p.vector.y)) := by
  unfold Pendulum.angle Vec2d.get_angle_degrees_between Vec2d.get_angle_between
  congr 2
  · show 0 * p.vector.y - -1 * p.vector.x = p.vector.x
    ring
  · show 0 * p.vector.x + -1 * p.vector.y = -p.vector.y
    ring

theorem Vec2d.degreesOfRadians_mem_Ioc {r : ℝ}
    (h : r ∈ Set.Ioc (-Real.pi) Real.pi) :
    Vec2d.degreesOfRadians r ∈ Set.Ioc (-180 : ℝ) 180 := by
  obtain ⟨h1, h2⟩ := h
  have hpi : (0 : ℝ) < Real.pi := Real.pi_pos
  have hc : (0 : ℝ) < 180 / Real.pi := by positivity
  unfold degreesOfRadians
  constructor
  · calc (-180 : ℝ) = -Real.pi * (180 / Real.pi) := by field_simp [mul_comm]
    _ < r * (180 / Real.pi) := mul_lt_mul_of_pos_right h1 hc
  · calc r * (180 / Real.pi) ≤ Real.pi * (180 / Real.pi) :=
        mul_le_mul_of_nonneg_right h2 hc.le
    _ = 180 := by field_simp [mul_comm]

/-- C1: when the bob's displacement from the anchor is the resting
direction `(0, -1)` scaled by any positive length, `angle` is `0°`; when
it is that resting displacement rotated by `+θ` degrees, `θ ∈ (0°, 180°)`,
`angle` is `+θ`, and rotated by `-θ` it is `-θ`; and `angle` always lies
in `(-180°, 180°]`. -/
theorem C1_angle_rest_symmetry_range (p : Pendulum) (s θ : ℝ) (hs : 0 < s) :
    (p.vector = ⟨0, -s⟩ → p.angle = 0) ∧
    (0 < θ → θ < 180 →
      ((p.vector = (Vec2d.mk 0 (-s)).rotated_degrees θ → p.angle = θ) ∧
       (p.vector = (Vec2d.mk 0 (-s)).rotated_degrees (-θ) → p.angle = -θ))) ∧
    (-180 < p.angle ∧ p.angle ≤ 180) := by
  have hpi : (0 : ℝ) < Real.pi := Real.pi_pos
  refine ⟨?_, ?_, ?_⟩
  · intro hv
    rw [Pendulum.angle_eq_atan2, hv]
    show Vec2d.degreesOfRadians (Vec2d.atan2 0 (- -s)) = 0
    rw [neg_neg, Vec2d.atan2_zero_of_nonneg hs.le]
    unfold Vec2d.degreesOfRadians
    ring
  · intro hθ0 hθ1
    constructor
    · intro hv
      rw [Pendulum.angle_eq_atan2, hv]
      have ht : Vec2d.radiansOfDegrees θ = θ * (Real.pi / 180) := rfl
      show Vec2d.degreesOfRadians (Vec2d.atan2
        (0 * Real.cos (Vec2d.radiansOfDegrees θ) - -s * Real.sin (Vec2d.radiansOfDegrees θ))
        (-(0 * Real.sin (Vec2d.radiansOfDegrees θ) + -s * Real.cos (Vec2d.radiansOfDegrees θ)))) = θ
      rw [show 0 * Real.cos (Vec2d.radiansOfDegrees θ) - -s * Real.sin (Vec2d.radiansOfDegrees θ)
            = s * Real.sin (Vec2d.radiansOfDegrees θ) by ring,
        show -(0 * Real.sin (Vec2d.radiansOfDegrees θ) + -s * Real.cos (Vec2d.radiansOfDegrees θ))
            = s * Real.cos (Vec2d.radiansOfDegrees θ) by ring,
        Vec2d.atan2_sin_cos hs ⟨by rw [ht]; nlinarith, by rw [ht]; nlinarith⟩,
        Vec2d.degreesOfRadians_radiansOfDegrees]
    · intro hv
      rw [Pendulum.angle_eq_atan2, hv]
      have ht : Vec2d.radiansOfDegrees (-θ) = -θ * (Real.pi / 180) := rfl
      show Vec2d.degreesOfRadians (Vec2d.atan2
        (0 * Real.cos (Vec2d.radiansOfDegrees (-θ)) - -s * Real.sin (Vec2d.radiansOfDegrees (-θ)))
        (-(0 * Real.sin (Vec2d.radiansOfDegrees (-θ)) + -s * Real.cos (Vec2d.radiansOfDegrees (-θ))))) = -θ
      rw [show 0 * Real.cos (Vec2d.radiansOfDegrees (-θ)) - -s * Real.sin (Vec2d.radiansOfDegrees (-θ))
            = s * Real.sin (Vec2d.radiansOfDegrees (-θ)) by ring,
        show -(0 * Real.sin (Vec2d.radiansOfDegrees (-θ)) + -s * Real.cos (Vec2d.radiansOfDegrees (-θ)))
            = s * Real.cos (Vec2d.radiansOfDegrees (-θ)) by ring,
        Vec2d.atan2_sin_cos hs ⟨by rw [ht]; nlinarith, by rw [ht]; nlinarith⟩,
        Vec2d.degreesOfRadians_radiansOfDegrees]
  · rw [Pendulum.angle_eq_atan2]
    exact ⟨(Vec2d.degreesOfRadians_mem_Ioc (Vec2d.atan2_mem_Ioc _ _)).1,
      (Vec2d.degreesOfRadians_mem_Ioc (Vec2d.atan2_mem_Ioc _ _)).2⟩

/-- C1 witness: the freshly constructed window's pendulum hangs straight
down (displacement `(0, -310)`), and its angle is `0°`, inside the range. -/
theorem C1_witness : mkWindow.model.angle = 0 ∧ -180 < mkWindow.model.angle := by
  have h := C1_angle_rest_symmetry_range mkWindow.model 310 90 (by norm_num)
  refine ⟨h.1 ?_, h.2.2.1⟩
  show (Vec2d.mk 360 50 - Vec2d.mk 360 360 : Vec2d) = ⟨0, -310⟩
  ext
  · show (360 : ℝ) - 360 = 0
    norm_num
  · show (50 : ℝ) - 360 = -310
    norm_num

theorem Body.apply_zero_impulse (b : Body) (pt : Vec2d) :
    b.apply_impulse_at_local_point ⟨0, 0⟩ pt = b := by
  unfold Body.apply_impulse_at_local_point
  refine Body.ext7 rfl rfl rfl rfl ?_ rfl ?_
  · show b.velocity + (1 / b.mass) • ((Vec2d.mk 0 0).rotated b.angle) = b.velocity
    ext <;> simp [Vec2d.rotated]
  · show b.angular_velocity +
        (1 / b.moment) * Vec2d.cross (b.position + pt.rotated b.angle - b.position)
          ((Vec2d.mk 0 0).rotated b.angle) = b.angular_velocity
    simp [Vec2d.rotated, Vec2d.cross]

/-- C7: `vector` equals `Bob.position - Anchor.position`, componentwise,
for every model state (arbitrary positions of both bodies, negative
coordinates included); it is a function of the current state, hence
recomputed on each call rather than cached. -/
theorem C7_vector_correct (p : Pendulum) :
    p.vector = p.circle_body.position - p.static_body.position ∧
    p.vector.x = p.circle_body.position.x - p.static_body.position.x ∧
    p.vector.y = p.circle_body.position.y - p.static_body.position.y :=
  ⟨rfl, rfl, rfl⟩

/-- C9: `accelerate` is total on the zero vector: pymunk's `normalized`
sends `(0, 0)` to `(0, 0)`, the impulse applied is therefore zero, and the
bob's velocity — indeed the whole model state — is unchanged. -/
theorem C9_accelerate_zero_vector (p : Pendulum) :
    Vec2d.normalized ⟨0, 0⟩ = ⟨0, 0⟩ ∧
    p.accelerate ⟨0, 0⟩ = p ∧
    (p.accelerate ⟨0, 0⟩).circle_body.velocity = p.circle_body.velocity := by
  have h0 : Vec2d.normalized ⟨0, 0⟩ = ⟨0, 0⟩ := Vec2d.normalized_zero
  have himp : Pendulum.FORCE • Vec2d.normalized ⟨0, 0⟩ = (⟨0, 0⟩ : Vec2d) := by
    rw [h0]
    ext <;> simp
  have hacc : p.accelerate ⟨0, 0⟩ = p := by
    unfold Pendulum.accelerate
    rw [himp]
    show { static_body := p.static_body,
           circle_body := p.circle_body.apply_impulse_at_local_point ⟨0, 0⟩ ⟨0, 0⟩,
           rod_joint := p.rod_joint : Pendulum } = p
    rw [Body.apply_zero_impulse]
  exact ⟨h0, hacc, by rw [hacc]⟩

/-- C10: `accelerate` changes only the bob's motion state: the anchor, the
joint, the bob's position (and rotation and mass), and hence the values of
`vector` and `angle` right after the call, all equal their values right
before it. -/
theorem C10_accelerate_frame (p : Pendulum) (d : Vec2d) :
    (p.accelerate d).static_body = p.static_body ∧
    (p.accelerate d).rod_joint = p.rod_joint ∧
    (p.accelerate d).circle_body.position = p.circle_body.position ∧
    (p.accelerate d).circle_body.angle = p.circle_body.angle ∧
    (p.accelerate d).circle_body.mass = p.circle_body.mass ∧
    (p.accelerate d).vector = p.vector ∧
    (p.accelerate d).angle = p.angle :=
  ⟨rfl, rfl, rfl, rfl, rfl, rfl, rfl⟩

/-- C6: construction builds the static anchor at `(360, 360)`, the bob of
mass `0.1` with the moment of a solid disk of radius `10` at `(360, 50)`,
a pin joint from anchor to bob, registers anchor, bob, the bob's circle
shape of radius `10` and the joint with the space in that order, and the
window sets the space's gravity to `(0, -9807)`. -/
theorem C6_construction :
    mkWindow.space.gravity = ⟨0, -9807⟩ ∧
    mkWindow.model.static_body.body_type = BodyType.STATIC ∧
    mkWindow.model.static_body.position = ⟨360, 360⟩ ∧
    mkWindow.model.circle_body.mass = 0.1 ∧
    mkWindow.model.circle_body.moment = 0.5 * 0.1 * 10 ^ 2 ∧
    mkWindow.model.circle_body.position = ⟨360, 50⟩ ∧
    mkWindow.model.rod_joint.a = mkWindow.model.static_body ∧
    mkWindow.model.rod_joint.b = mkWindow.model.circle_body ∧
    mkWindow.space.added =
      [SpaceElem.body mkWindow.model.static_body,
       SpaceElem.body mkWindow.model.circle_body,
       SpaceElem.shape ⟨mkWindow.model.circle_body, 10⟩,
       SpaceElem.constraint mkWindow.model.rod_joint] := by
  refine ⟨rfl, rfl, rfl, ?_, ?_, rfl, rfl, rfl, ?_⟩
  · show Pendulum.MASS = 0.1
    norm_num [Pendulum.MASS]
  · show moment_for_circle Pendulum.MASS 0 10.0 ⟨0, 0⟩ = 0.5 * 0.1 * 10 ^ 2
    norm_num [moment_for_circle, Pendulum.MASS]
  · norm_num [mkWindow, Pendulum.create_entities]

/-- C4: two non-zero directions of identical orientation (one a positive
scalar multiple of the other) give identical `accelerate` results — the
same impulse and the same velocity change — and the impulse's magnitude
is the constant `FORCE = 10`, independent of the input's length. -/
theorem C4_accelerate_magnitude_invariant (p : Pendulum) (d : Vec2d) (c : ℝ)
    (hc : 0 < c) (hd : d.length ≠ 0) :
    p.accelerate (c • d) = p.accelerate d ∧
    (p.accelerate (c • d)).circle_body.velocity = (p.accelerate d).circle_body.velocity ∧
    (Pendulum.FORCE • d.normalized).length = 10 := by
  have hsame : p.accelerate (c • d) = p.accelerate d := by
    unfold Pendulum.accelerate
    rw [Vec2d.normalized_smul_of_pos hc]
  refine ⟨hsame, by rw [hsame], ?_⟩
  rw [Vec2d.length_smul, Vec2d.length_normalized hd,
    show |Pendulum.FORCE| = 10 by norm_num [Pendulum.FORCE]]
  norm_num

/-- C4 witness: scaling the direction `(1, 0)` by `2` leaves the result of
`accelerate` on the freshly constructed model unchanged. -/
theorem C4_witness :
    mkWindow.model.accelerate ((2 : ℝ) • ⟨1, 0⟩) = mkWindow.model.accelerate ⟨1, 0⟩ ∧
    (Pendulum.FORCE • (Vec2d.mk 1 0).normalized).length = 10 := by
  have h := C4_accelerate_magnitude_invariant mkWindow.model ⟨1, 0⟩ 2 (by norm_num)
    (by
      show Real.sqrt ((1 : ℝ) ^ 2 + 0 ^ 2) ≠ 0
      rw [show ((1 : ℝ) ^ 2 + 0 ^ 2) = 1 by norm_num, Real.sqrt_one]
      norm_num)
  exact ⟨h.1, h.2.2⟩

/-- C5: on a tick, if LEFT is held (whatever RIGHT is) `accelerate` is
called exactly once, with the pendulum vector rotated `-90°`; if LEFT is
up and RIGHT is held, exactly once with the vector rotated `+90°`; and if
neither is held it is not called at all. -/
theorem C5_input_dispatch (model : Pendulum) (kb : KeyState) :
    (kb.left = true →
      handle_input model kb =
        (model.accelerate (model.vector.rotated_degrees (-90)),
         [model.vector.rotated_degrees (-90)])) ∧
    (kb.left = false → kb.right = true →
      handle_input model kb =
        (model.accelerate (model.vector.rotated_degrees 90),
         [model.vector.rotated_degrees 90])) ∧
    (kb.left = false → kb.right = false →
      handle_input model kb = (model, [])) := by
  refine ⟨fun hl => ?_, fun hl hr => ?_, fun hl hr => ?_⟩ <;>
    simp [handle_input, hl]
  · simp [hr]
  · simp [hr]

/-- C5 witness: with both keys held, only the LEFT branch fires on the
freshly constructed model. -/
theorem C5_witness :
    handle_input mkWindow.model ⟨true, true⟩ =
      (mkWindow.model.accelerate (mkWindow.model.vector.rotated_degrees (-90)),
       [mkWindow.model.vector.rotated_degrees (-90)]) :=
  (C5_input_dispatch mkWindow.model ⟨true, true⟩).1 rfl

/-- C8: after every call to `update` — whatever the solver, prior state,
keyboard and `dt` — the label text is exactly `"Angle: "` followed by the
model's current (post-step) angle formatted to zero decimal places in a
field of width 4, followed by `"°"`. -/
theorem C8_label_text (env : StepEnv) (w : WindowState) (kb : KeyState) (dt : ℝ) :
    (update env w kb dt).label_text =
      "Angle: " ++ formatFixed 4 ((update env w kb dt).model.angle) ++ "°" :=
  rfl

theorem runUpdates_dt_irrelevant (env : StepEnv) (w : WindowState) :
    ∀ (t1 t2 : List (KeyState × ℝ)),
      t1.map Prod.fst = t2.map Prod.fst →
      runUpdates env w t1 = runUpdates env w t2 := by
  intro t1
  induction t1 generalizing w with
  | nil =>
    intro t2 hk
    cases t2 with
    | nil => rfl
    | cons b bs => simp at hk
  | cons a as ih =>
    intro t2 hk
    cases t2 with
    | nil => simp at hk
    | cons b bs =>
      simp only [List.map_cons, List.cons.injEq] at hk
      obtain ⟨hab, hrest⟩ := hk
      show update env w a.1 a.2 :: runUpdates env (update env w a.1 a.2) as =
        update env w b.1 b.2 :: runUpdates env (update env w b.1 b.2) bs
      have hupd : update env w a.1 a.2 = update env w b.1 b.2 := by
        rw [hab]
        rfl
      rw [hupd]
      exact congrArg _ (ih (update env w b.1 b.2) bs hrest)

/-- C2: two runs of `update` from the same initial state, with the same
keyboard snapshot on every tick but arbitrarily different `dt` arguments,
produce identical bob trajectories (position and velocity after every
call): `update` steps the space by the constant `INTERVAL` and never
reads `dt`.  This holds for every solver `env`. -/
theorem C2_fixed_step_determinism (env : StepEnv) (w : WindowState)
    (t1 t2 : List (KeyState × ℝ))
    (hk : t1.map Prod.fst = t2.map Prod.fst) :
    (runUpdates env w t1).map bobPosVel = (runUpdates env w t2).map bobPosVel := by
  rw [runUpdates_dt_irrelevant env w t1 t2 hk]

/-- C2 witness: a two-tick run with `dt` values `1/100, 1/100` against the
same keys with `dt` values `7, 1000` — trajectories coincide for the
identity solver from the freshly constructed window. -/
theorem C2_witness :
    (runUpdates ⟨fun s m _ => (s, m)⟩ mkWindow
        [(⟨false, false⟩, 1 / 100), (⟨true, false⟩, 1 / 100)]).map bobPosVel =
      (runUpdates ⟨fun s m _ => (s, m)⟩ mkWindow
        [(⟨false, false⟩, 7), (⟨true, false⟩, 1000)]).map bobPosVel :=
  C2_fixed_step_determinism ⟨fun s m _ => (s, m)⟩ mkWindow
    [(⟨false, false⟩, 1 / 100), (⟨true, false⟩, 1 / 100)]
    [(⟨false, false⟩, 7), (⟨true, false⟩, 1000)] rfl

theorem Body.velocity_apply_impulse (b : Body) (imp pt : Vec2d) :
    (b.apply_impulse_at_local_point imp pt).velocity =
      b.velocity + (1 / b.mass) • (imp.rotated b.angle) := rfl

theorem normalized_mk_one_zero : (Vec2d.mk 1 0).normalized = ⟨1, 0⟩ := by
  have hl : (Vec2d.mk 1 0).length = 1 := by
    unfold Vec2d.length
    rw [show ((1 : ℝ) ^ 2 + 0 ^ 2) = 1 by norm_num, Real.sqrt_one]
  rw [Vec2d.normalized_of_ne_zero (by rw [hl]; norm_num), hl]
  ext <;> simp

/-- A pendulum state whose bob carries rotation angle `π`: the bob is a
free rigid body, so pymunk lets its rotation angle take any value. -/
def spunPendulum : Pendulum :=
  { static_body := Body.mkStatic ⟨0, 0⟩,
    circle_body :=
      { body_type := .DYNAMIC, mass := 1, moment := 1, position := ⟨0, -100⟩,
        velocity := 0, angle := Real.pi, angular_velocity := 0 },
    rod_joint :=
      { a := Body.mkStatic ⟨0, 0⟩,
        b := { body_type := .DYNAMIC, mass := 1, moment := 1, position := ⟨0, -100⟩,
               velocity := 0, angle := Real.pi, angular_velocity := 0 },
        anchor_a := ⟨0, 0⟩, anchor_b := ⟨0, 0⟩ } }

/-- C3 counterexample: `apply_impulse_at_local_point` takes its impulse in
body-local coordinates, so with the bob rotated by `π` the impulse
`accelerate ⟨1, 0⟩` delivers in world coordinates points along `(-1, 0)`,
not along the input direction `(1, 0)` — the claim's "regardless of the
Bob's current rotation angle" fails. -/
theorem C3_counterexample :
    ¬ ((spunPendulum.applied_world_impulse ⟨1, 0⟩).normalized =
        (Vec2d.mk 1 0).normalized) := by
  have himp : spunPendulum.applied_world_impulse ⟨1, 0⟩ = ⟨-10, 0⟩ := by
    unfold Pendulum.applied_world_impulse Pendulum.accelerate
    rw [normalized_mk_one_zero, Body.velocity_apply_impulse]
    ext <;>
      simp [spunPendulum, Vec2d.rotated, Pendulum.FORCE, Real.cos_pi, Real.sin_pi]
  have hneg : (Vec2d.mk (-10) 0).normalized = ⟨-1, 0⟩ := by
    have hl : (Vec2d.mk (-10) 0).length = 10 := by
      unfold Vec2d.length
      rw [show ((-10 : ℝ) ^ 2 + 0 ^ 2) = 10 ^ 2 by norm_num,
        Real.sqrt_sq (by norm_num : (0 : ℝ) ≤ 10)]
    rw [Vec2d.normalized_of_ne_zero (by rw [hl]; norm_num), hl]
    ext <;> norm_num
  intro h
  rw [himp, hneg, normalized_mk_one_zero] at h
  have hx := congrArg Vec2d.x h
  simp at hx
  norm_num at hx

/-- C3, amended as the counterexample forces: for a non-zero direction the
normalized world-coordinate impulse applied by `accelerate` equals the
normalized input direction whenever the bob's rotation angle is `0` — the
only value the angle takes in this program, where every impulse passes
through the centre and no torque is ever applied — rather than regardless
of that angle; in general the world impulse is the input direction rotated
by the bob's angle. -/
theorem C3_amended_direction (p : Pendulum) (d : Vec2d)
    (hangle : p.circle_body.angle = 0) (hm : p.circle_body.mass ≠ 0)
    (hd : d.length ≠ 0) :
    (p.applied_world_impulse d).normalized = d.normalized := by
  have hw : p.applied_world_impulse d = Pendulum.FORCE • d.normalized := by
    unfold Pendulum.applied_world_impulse
    rw [show (p.accelerate d).circle_body =
        p.circle_body.apply_impulse_at_local_point (Pendulum.FORCE • d.normalized) ⟨0, 0⟩
      from rfl, Body.velocity_apply_impulse, hangle, Vec2d.rotated_zero_angle]
    ext <;> simp <;> field_simp
  rw [hw,
    Vec2d.normalized_smul_of_pos (show (0 : ℝ) < Pendulum.FORCE by norm_num [Pendulum.FORCE]),
    Vec2d.normalized_normalized]

/-- C3 witness: the freshly constructed model's bob has rotation angle `0`
and mass `0.1`, and there the amended direction property holds for the
input `(1, 0)`. -/
theorem C3_witness :
    (mkWindow.model.applied_world_impulse ⟨1, 0⟩).normalized =
      (Vec2d.mk 1 0).normalized :=
  C3_amended_direction mkWindow.model ⟨1, 0⟩ rfl
    (by
      show Pendulum.MASS ≠ 0
      norm_num [Pendulum.MASS])
    (by
      show Real.sqrt ((1 : ℝ) ^ 2 + 0 ^ 2) ≠ 0
      rw [show ((1 : ℝ) ^ 2 + 0 ^ 2) = 1 by norm_num, Real.sqrt_one]
      norm_num)
